import Mathlib

/-!
# Verification of the p2plab scenario metadata store

A shallow embedding of `metadata/scenario.go`: the scenario CRUD layer that
persists `Scenario` documents into a bolt-style nested key/value store.

The embedding models:

* the bolt bucket tree (nested namespaces holding leaf key/value pairs and
  sub-buckets, per the documented semantics of the external `bbolt` library:
  `Bucket`, `CreateBucket`, `DeleteBucket`, `Put`, `ForEach` in key order,
  and write transactions that roll back entirely on error);
* the repository's codec and CRUD functions (`writeMap`, `readMap`,
  `writeObjects`, `readObjects`, `writeDefinition`, `readDefinition`,
  `writeScenario`, `readScenario`, `CreateScenario`, `GetScenario`,
  `ListScenarios`, `UpdateScenario`, `DeleteScenario`), translated
  line by line from the source;
* the helpers that the source calls but whose files are not available
  (`WriteTimestamps`, `ReadTimestamps`, `getScenariosBucket`,
  `createScenariosBucket`, the bucket key constants, and the transaction
  wrapper `DB.Update`); these are modelled from the specification and are
  marked `Modelled from the spec:` in their doc comments.

Go `map[string]string` and `map[string]ObjectDefinition` values are modelled
extensionally as association lists of key/value pairs (a `nil` map and an
empty map are both `[]`).  Wall-clock reads (`time.Now`) are passed in as an
explicit `Nat` parameter.  Error kinds model `errdefs` and the bolt error
values that the source distinguishes.
-/

set_option autoImplicit false

namespace P2plab

/-- Error kinds: the `errdefs` classes that the daemon maps to HTTP statuses,
plus the bolt engine errors that the source code compares against.
`nilBucketCrash` models the nil-pointer panic that would occur if a bucket
method were invoked on a `nil` bucket. -/
inductive Err where
  | notFound
  | alreadyExists
  | invalidArgument
  | bucketExists
  | bucketNotFound
  | bucketNameRequired
  | keyRequired
  | incompatibleValue
  | nilBucketCrash
  deriving DecidableEq

/-- A node of a bolt bucket: either a leaf value (UTF-8 text) or a nested
sub-bucket given by its own entry list. -/
inductive Node where
  | leaf (v : String)
  | bucket (es : List (String × Node))

/-- The entry list of one bucket. -/
abbrev Entries := List (String × Node)

/-- The root of the store: bolt's root holds only buckets, never leaves. -/
abbrev Root := List (String × Entries)

/-- Association-list lookup: the value stored at key `k`, if any. -/
def alLookup {α : Type} : List (String × α) → String → Option α
  | [], _ => none
  | (k', v) :: rest, k => if k = k' then some v else alLookup rest k

/-- Byte-wise "less than" on key strings (lexicographic on character codes),
modelling the byte order bolt keeps bucket keys in.  (Only the existence of a
fixed total iteration order matters to any property below, not which one.) -/
def strLt : List Char → List Char → Bool
  | [], [] => false
  | [], _ :: _ => true
  | _ :: _, [] => false
  | c :: cs, d :: ds =>
    if c.toNat < d.toNat then true
    else if c.toNat = d.toNat then strLt cs ds
    else false

/-- Association-list write in sorted key position: bolt buckets keep their
keys in byte order, so an insert lands at its ordered position and a write to
an existing key replaces the stored value. -/
def alPut {α : Type} (k : String) (v : α) : List (String × α) → List (String × α)
  | [] => [(k, v)]
  | (k', v') :: rest =>
    if strLt k.data k'.data then (k, v) :: (k', v') :: rest
    else if k = k' then (k, v) :: rest
    else (k', v') :: alPut k v rest

/-- Association-list delete of the entry stored at key `k`. -/
def alDelete {α : Type} (k : String) : List (String × α) → List (String × α)
  | [] => []
  | (k', v) :: rest => if k = k' then rest else (k', v) :: alDelete k rest

/-- `Bucket.Bucket(name)` of bolt: the nested bucket stored at `name`, or
`none` when the key is absent or holds a leaf value. -/
def getBucket (bkt : Entries) (name : String) : Option Entries :=
  match alLookup bkt name with
  | some (Node.bucket es) => some es
  | _ => none

/-- `Bucket.CreateBucket(name)` of bolt: fails with `ErrBucketNameRequired`
on an empty name, `ErrBucketExists` when a bucket already sits at `name`, and
`ErrIncompatibleValue` when a leaf sits there. -/
def createBucket (bkt : Entries) (name : String) : Except Err Entries :=
  if name = "" then Except.error Err.bucketNameRequired
  else
    match alLookup bkt name with
    | some (Node.bucket _) => Except.error Err.bucketExists
    | some (Node.leaf _) => Except.error Err.incompatibleValue
    | none => Except.ok (alPut name (Node.bucket []) bkt)

/-- `Bucket.DeleteBucket(name)` of bolt: fails with `ErrBucketNotFound` when
the key is absent, `ErrIncompatibleValue` when it holds a leaf, and otherwise
removes the sub-bucket and everything under it. -/
def deleteBucket (bkt : Entries) (name : String) : Except Err Entries :=
  match alLookup bkt name with
  | none => Except.error Err.bucketNotFound
  | some (Node.leaf _) => Except.error Err.incompatibleValue
  | some (Node.bucket _) => Except.ok (alDelete name bkt)

/-- `Bucket.Put(k, v)` of bolt: fails with `ErrKeyRequired` on an empty key
and `ErrIncompatibleValue` when a sub-bucket sits at `k`. -/
def putLeaf (bkt : Entries) (k v : String) : Except Err Entries :=
  if k = "" then Except.error Err.keyRequired
  else
    match alLookup bkt k with
    | some (Node.bucket _) => Except.error Err.incompatibleValue
    | _ => Except.ok (alPut k (Node.leaf v) bkt)

/-- The text of a node as `ForEach` hands it to a Go callback: leaf entries
yield their value, sub-bucket entries yield a `nil` value slice, and
`string(nil)` is the empty string. -/
def nodeText : Node → String
  | Node.leaf v => v
  | Node.bucket _ => ""

/-- `ObjectDefinition` of `metadata/scenario.go`: a typed data source plus
DAG-construction hints. -/
structure ObjectDefinition where
  type : String
  reference : String
  chunker : String
  layout : String
  deriving DecidableEq

/-- Objects of one definition: Go `map[string]ObjectDefinition`. -/
abbrev ObjMap := List (String × ObjectDefinition)

/-- Go `map[string]string` (Seed and Benchmark fields). -/
abbrev StrMap := List (String × String)

/-- `ScenarioDefinition` of `metadata/scenario.go`. -/
structure ScenarioDefinition where
  objects : List (String × ObjectDefinition)
  seed : StrMap
  benchmark : StrMap
  deriving DecidableEq

/-- `Scenario` of `metadata/scenario.go`; instants are modelled as `Nat`. -/
structure Scenario where
  id : String
  definition : ScenarioDefinition
  createdAt : Nat
  updatedAt : Nat
  deriving DecidableEq

/-! ## Bucket key constants

Modelled from the spec: the `bucketKey*` constants are declared in a metadata
package file that is not available; only their distinctness and the layout of
§4.2/§6 (entity-type bucket → id bucket → scalar leaves, timestamp leaves,
and the Definition/Objects/Seed/Benchmark sub-buckets) matter. -/

def keyScenarios : String := "scenarios"

def keyID : String := "id"

def keyDefinition : String := "definition"

def keyObjects : String := "objects"

def keySeed : String := "seed"

def keyBenchmark : String := "benchmark"

def keyType : String := "type"

def keyReference : String := "reference"

def keyCreatedAt : String := "createdat"

def keyUpdatedAt : String := "updatedat"

/-! ## Timestamp codec

Modelled from the spec: `WriteTimestamps`/`ReadTimestamps` live in a metadata
package file that is not available.  Per §4.4 they reserve two leaf keys for
the created/updated instants, and per §6 all leaf values are UTF-8 text, so an
instant is stored as its decimal text. -/

/-- Decimal digits of `n`, most significant first; `fuel` bounds recursion
depth and any `fuel > n` is enough. -/
def natDigitsAux : Nat → Nat → List Nat
  | 0, _ => []
  | fuel + 1, n =>
    if n < 10 then [n] else natDigitsAux fuel (n / 10) ++ [n % 10]

/-- The character of one decimal digit. -/
def digitChar (d : Nat) : Char :=
  match d with
  | 0 => '0' | 1 => '1' | 2 => '2' | 3 => '3' | 4 => '4'
  | 5 => '5' | 6 => '6' | 7 => '7' | 8 => '8' | _ => '9'

/-- Modelled from the spec: the decimal-text encoding of an instant (§6: all
leaf values are UTF-8 text). -/
def natLeaf (n : Nat) : String :=
  String.mk ((natDigitsAux (n + 1) n).map digitChar)

/-- One step of decimal decoding. -/
def leafNatStep (a : Nat) (c : Char) : Nat :=
  a * 10 + (c.toNat - 48)

/-- Modelled from the spec: decoding an instant from its decimal text. -/
def leafNat (s : String) : Nat :=
  s.data.foldl leafNatStep 0

/-- The text of the leaf stored at `k`, or `""` when absent or a bucket. -/
def leafText (bkt : Entries) (k : String) : String :=
  match alLookup bkt k with
  | some (Node.leaf v) => v
  | _ => ""

/-- Modelled from the spec: `WriteTimestamps` stores the two instants it is
given at the two reserved leaf keys (§4.4). -/
def WriteTimestamps (bkt : Entries) (created updated : Nat) : Except Err Entries :=
  match putLeaf bkt keyCreatedAt (natLeaf created) with
  | Except.error e => Except.error e
  | Except.ok b1 => putLeaf b1 keyUpdatedAt (natLeaf updated)

/-- Modelled from the spec: `ReadTimestamps` decodes the two reserved leaf
keys (§4.4). -/
def ReadTimestamps (bkt : Entries) : Nat × Nat :=
  (leafNat (leafText bkt keyCreatedAt), leafNat (leafText bkt keyUpdatedAt))

/-! ## Field codec (`metadata/scenario.go`) -/

/-- The loop of `writeMap`: entries with an empty value are deleted from the
Go map (and not persisted); the rest are `Put` into the fresh map bucket.
Returns the bucket contents together with the map as the loop leaves it. -/
def writeMapLoop : Entries → StrMap → Except Err (Entries × StrMap)
  | mb, [] => Except.ok (mb, [])
  | mb, (k, v) :: rest =>
    if v = "" then writeMapLoop mb rest
    else
      match putLeaf mb k v with
      | Except.error e => Except.error e
      | Except.ok mb' =>
        match writeMapLoop mb' rest with
        | Except.error e => Except.error e
        | Except.ok (mbf, m') => Except.ok (mbf, (k, v) :: m')

/-- The delete-then-recreate prologue shared by `writeMap`, `writeObjects`
and `writeDefinition`: if a sub-bucket for the field already exists it is
deleted in full (the delete cannot fail because it is only attempted when
`Bucket(name)` returned a bucket). -/
def stripBucket (bkt : Entries) (name : String) : Entries :=
  if (getBucket bkt name).isSome then alDelete name bkt else bkt

/-- `writeMap` of `metadata/scenario.go`: delete any existing sub-bucket for
the field, recreate it only when the map is non-empty, and store each
non-empty-valued entry as one leaf. -/
def writeMap (bkt : Entries) (name : String) (m : StrMap) :
    Except Err (Entries × StrMap) :=
  let bkt1 := stripBucket bkt name
  if m.isEmpty then Except.ok (bkt1, m)
  else
    match createBucket bkt1 name with
    | Except.error e => Except.error e
    | Except.ok _ =>
      match writeMapLoop [] m with
      | Except.error e => Except.error e
      | Except.ok (mb, m') => Except.ok (alPut name (Node.bucket mb) bkt1, m')

/-- `readMap` of `metadata/scenario.go`: absent sub-bucket decodes to the
nil map; otherwise every entry of the sub-bucket becomes one map entry. -/
def readMap (bkt : Entries) (name : String) : StrMap :=
  match getBucket bkt name with
  | none => []
  | some mb => mb.map (fun p => (p.1, nodeText p.2))

/-- The leaves written for one object: `writeObjects` puts only the `Type`
and `Reference` fields (`Chunker` and `Layout` are not written). -/
def objectEntries (obj : ObjectDefinition) : Entries :=
  alPut keyReference (Node.leaf obj.reference)
    (alPut keyType (Node.leaf obj.type) [])

/-- The loop of `writeObjects`: one sub-bucket per object name, holding the
scalar leaves of `objectEntries`. -/
def writeObjectsLoop : Entries → ObjMap → Except Err Entries
  | ob, [] => Except.ok ob
  | ob, (name, obj) :: rest =>
    match createBucket ob name with
    | Except.error e => Except.error e
    | Except.ok _ =>
      writeObjectsLoop (alPut name (Node.bucket (objectEntries obj)) ob) rest

/-- `writeObjects` of `metadata/scenario.go`: delete any existing `objects`
sub-bucket, recreate it only when the map is non-empty, then write one
sub-bucket per object. -/
def writeObjects (bkt : Entries) (objects : ObjMap) : Except Err Entries :=
  let bkt1 := stripBucket bkt keyObjects
  if objects.isEmpty then Except.ok bkt1
  else
    match createBucket bkt1 keyObjects with
    | Except.error e => Except.error e
    | Except.ok _ =>
      match writeObjectsLoop [] objects with
      | Except.error e => Except.error e
      | Except.ok ob => Except.ok (alPut keyObjects (Node.bucket ob) bkt1)

/-- The inner `ForEach` of `readObjects`: only the `type` and `reference`
leaves are decoded; every other key is ignored. -/
def readObject (nbkt : Entries) : ObjectDefinition :=
  nbkt.foldl
    (fun obj p =>
      if p.1 = keyType then { obj with type := nodeText p.2 }
      else if p.1 = keyReference then { obj with reference := nodeText p.2 }
      else obj)
    ⟨"", "", "", ""⟩

/-- The outer `ForEach` of `readObjects`: leaf entries are skipped
(`obkt.Bucket(name)` returns nil for them). -/
def readObjectsLoop : Entries → ObjMap
  | [] => []
  | (name, Node.bucket nbkt) :: rest => (name, readObject nbkt) :: readObjectsLoop rest
  | (_, Node.leaf _) :: rest => readObjectsLoop rest

/-- `readObjects` of `metadata/scenario.go`. -/
def readObjects (bkt : Entries) : ObjMap :=
  match getBucket bkt keyObjects with
  | none => []
  | some ob => readObjectsLoop ob

/-- The contents of a freshly written `definition` bucket, together with the
definition value as mutated by the `writeMap` calls.  The bucket is built
from scratch, so its contents depend only on the definition being written. -/
def buildDefinitionBucket (sdef : ScenarioDefinition) :
    Except Err (Entries × ScenarioDefinition) :=
  match writeObjects [] sdef.objects with
  | Except.error e => Except.error e
  | Except.ok d1 =>
    match writeMap d1 keySeed sdef.seed with
    | Except.error e => Except.error e
    | Except.ok (d2, seed2) =>
      match writeMap d2 keyBenchmark sdef.benchmark with
      | Except.error e => Except.error e
      | Except.ok (d3, bench2) => Except.ok (d3, ⟨sdef.objects, seed2, bench2⟩)

/-- `writeDefinition` of `metadata/scenario.go`: delete any existing
`definition` sub-bucket (the delete cannot fail because it is only attempted
when `Bucket` returned a bucket), recreate it, then write the three
collections into the fresh bucket. -/
def writeDefinition (bkt : Entries) (sdef : ScenarioDefinition) :
    Except Err (Entries × ScenarioDefinition) :=
  let bkt1 := stripBucket bkt keyDefinition
  match createBucket bkt1 keyDefinition with
  | Except.error e => Except.error e
  | Except.ok _ =>
    match buildDefinitionBucket sdef with
    | Except.error e => Except.error e
    | Except.ok (d, sd) => Except.ok (alPut keyDefinition (Node.bucket d) bkt1, sd)

/-- The decoding of a `definition` bucket's contents. -/
def decodeDef (dbkt : Entries) : ScenarioDefinition :=
  ⟨readObjects dbkt, readMap dbkt keySeed, readMap dbkt keyBenchmark⟩

/-- `readDefinition` of `metadata/scenario.go`: an absent `definition`
sub-bucket decodes to the zero definition. -/
def readDefinition (bkt : Entries) : ScenarioDefinition :=
  match getBucket bkt keyDefinition with
  | none => ⟨[], [], []⟩
  | some dbkt => decodeDef dbkt

/-- The trailing `ForEach` of `readScenario`: among leaf entries, the one at
the `id` key overrides the scenario id. -/
def foldIdAux : Entries → String → String
  | [], acc => acc
  | (k, Node.leaf v) :: rest, acc => foldIdAux rest (if k = keyID then v else acc)
  | (_, Node.bucket _) :: rest, acc => foldIdAux rest acc

/-- `readScenario` of `metadata/scenario.go`. -/
def readScenario (bkt : Entries) (id : String) : Scenario :=
  let ts := ReadTimestamps bkt
  ⟨foldIdAux bkt id, readDefinition bkt, ts.1, ts.2⟩

/-- `writeScenario` of `metadata/scenario.go`: timestamps, then the
definition, then the `id` leaf. -/
def writeScenario (bkt : Entries) (s : Scenario) : Except Err (Entries × Scenario) :=
  match WriteTimestamps bkt s.createdAt s.updatedAt with
  | Except.error e => Except.error e
  | Except.ok b1 =>
    match writeDefinition b1 s.definition with
    | Except.error e => Except.error e
    | Except.ok (b2, sdef) =>
      match putLeaf b2 keyID s.id with
      | Except.error e => Except.error e
      | Except.ok b3 => Except.ok (b3, { s with definition := sdef })

/-! ## Record CRUD (`metadata/scenario.go`) -/

/-- Modelled from the spec: `getScenariosBucket` navigates to the top-level
entity-type bucket (§4.2), `nil` when absent. -/
def getScenariosBucket (db : Root) : Option Entries :=
  alLookup db keyScenarios

/-- Modelled from the spec: `createScenariosBucket` creates the top-level
entity-type bucket if it does not exist yet (§4.2).  At the bolt root the
(constant, non-empty) bucket name can collide with nothing, so the call
cannot fail and it yields the bucket's current contents. -/
def scenariosContents (db : Root) : Entries :=
  (alLookup db keyScenarios).getD []

/-- Modelled from the spec: `DB.Update` runs its body inside one write
transaction; any error aborts the transaction and rolls back every bucket
created or mutated during the call, leaving prior state exactly as before
(§4.1). -/
def runUpdate {α : Type} (db : Root) (body : Root → Except Err (Root × α)) :
    Root × Except Err α :=
  match body db with
  | Except.ok (db', a) => (db', Except.ok a)
  | Except.error e => (db, Except.error e)

/-- The write-transaction body of `CreateScenario`: `CreateBucket` on the id
fails with `ErrBucketExists` when the record exists, which the source remaps
to `AlreadyExists`; both timestamps are set to the current instant. -/
def createScenarioTx (now : Nat) (s : Scenario) (db : Root) :
    Except Err (Root × Scenario) :=
  let sb := scenariosContents db
  match createBucket sb s.id with
  | Except.error Err.bucketExists => Except.error Err.alreadyExists
  | Except.error e => Except.error e
  | Except.ok _ =>
    match writeScenario [] { s with createdAt := now, updatedAt := now } with
    | Except.error e => Except.error e
    | Except.ok (cb, s2) =>
      Except.ok (alPut keyScenarios (alPut s.id (Node.bucket cb) sb) db, s2)

/-- `CreateScenario` of `metadata/scenario.go`; `now` is the value of
`time.Now()` inside the transaction. -/
def CreateScenario (db : Root) (now : Nat) (s : Scenario) :
    Root × Except Err Scenario :=
  runUpdate db (createScenarioTx now s)

/-- The write-transaction body of `UpdateScenario`: the scenarios bucket is
created if absent, then a missing id-bucket yields `NotFound`; only the
updated timestamp is advanced to the current instant (the record's own
`CreatedAt` field is written as-is by `writeScenario`). -/
def updateScenarioTx (now : Nat) (s : Scenario) (db : Root) :
    Except Err (Root × Scenario) :=
  let sb := scenariosContents db
  match getBucket sb s.id with
  | none => Except.error Err.notFound
  | some cb =>
    match writeScenario cb { s with updatedAt := now } with
    | Except.error e => Except.error e
    | Except.ok (cb', s2) =>
      Except.ok (alPut keyScenarios (alPut s.id (Node.bucket cb') sb) db, s2)

/-- `UpdateScenario` of `metadata/scenario.go`: an empty id is rejected with
`InvalidArgument` before any transaction is opened. -/
def UpdateScenario (db : Root) (now : Nat) (s : Scenario) :
    Root × Except Err Scenario :=
  if s.id = "" then (db, Except.error Err.invalidArgument)
  else runUpdate db (updateScenarioTx now s)

/-- The write-transaction body of `DeleteScenario`: a missing top-level
bucket or a `DeleteBucket` failure with `ErrBucketNotFound` is remapped to
`NotFound`; any other `DeleteBucket` error propagates as-is. -/
def deleteScenarioTx (id : String) (db : Root) : Except Err (Root × Unit) :=
  match getScenariosBucket db with
  | none => Except.error Err.notFound
  | some sb =>
    match deleteBucket sb id with
    | Except.error Err.bucketNotFound => Except.error Err.notFound
    | Except.error e => Except.error e
    | Except.ok sb' => Except.ok (alPut keyScenarios sb' db, ())

/-- `DeleteScenario` of `metadata/scenario.go`. -/
def DeleteScenario (db : Root) (id : String) : Root × Except Err Unit :=
  runUpdate db (deleteScenarioTx id)

/-- `GetScenario` of `metadata/scenario.go`: a read-only transaction; a
missing top-level bucket or id-bucket yields `NotFound`. -/
def GetScenario (db : Root) (id : String) : Except Err Scenario :=
  match getScenariosBucket db with
  | none => Except.error Err.notFound
  | some sb =>
    match getBucket sb id with
    | none => Except.error Err.notFound
    | some cb => Except.ok (readScenario cb id)

/-- The `ForEach` of `ListScenarios`: every key of the scenarios bucket is
read as a scenario.  A leaf entry would make `bkt.Bucket(k)` return nil and
`readScenario` would dereference it, which is modelled as `nilBucketCrash`
(no such entry is ever created by this layer). -/
def listLoop : Entries → Except Err (List Scenario)
  | [] => Except.ok []
  | (_, Node.leaf _) :: _ => Except.error Err.nilBucketCrash
  | (k, Node.bucket cb) :: rest =>
    match listLoop rest with
    | Except.error e => Except.error e
    | Except.ok l => Except.ok (readScenario cb k :: l)

/-- `ListScenarios` of `metadata/scenario.go`: a missing top-level bucket
yields the empty collection, not an error. -/
def ListScenarios (db : Root) : Except Err (List Scenario) :=
  match getScenariosBucket db with
  | none => Except.ok []
  | some sb => listLoop sb

/-- Does an id-bucket for `id` exist in the store? -/
def existsId (db : Root) (id : String) : Bool :=
  match getScenariosBucket db with
  | none => false
  | some sb => (getBucket sb id).isSome

/-- The created/updated instants stored for `id`, observed through
`GetScenario`. -/
def storedTimes (db : Root) (id : String) : Option (Nat × Nat) :=
  match GetScenario db id with
  | Except.ok s => some (s.createdAt, s.updatedAt)
  | Except.error _ => none

/-- Keys of an entry list are pairwise distinct (true of every real bucket). -/
def keysNodupB {α : Type} : List (String × α) → Bool
  | [] => true
  | (k, _) :: rest => (alLookup rest k).isNone && keysNodupB rest

/-- Well-formedness of the scenarios bucket as bolt maintains it: distinct
keys and only sub-buckets (this layer never puts a leaf into it). -/
def scenariosWF (db : Root) : Bool :=
  match getScenariosBucket db with
  | none => true
  | some sb => keysNodupB sb && sb.all (fun p => match p.2 with
      | Node.bucket _ => true
      | Node.leaf _ => false)

/-- The round-trip of one definition through a freshly written `definition`
bucket: what any reader decodes after this definition was the last write.
`none` when the write itself fails. -/
def defRoundTrip (sdef : ScenarioDefinition) : Option ScenarioDefinition :=
  match buildDefinitionBucket sdef with
  | Except.ok (d, _) => some (decodeDef d)
  | Except.error _ => none

/-- The stored (created, updated) instants observed after each update of a
sequence: step `(t, c, d)` calls UpdateScenario at instant `t` with a record
carrying CreatedAt `c` and definition `d`, then reads the stored pair back;
`none` when any step fails. -/
def updateTrace (id : String) (db : Root) :
    List (Nat × Nat × ScenarioDefinition) → Option (List (Nat × Nat))
  | [] => some []
  | (t, c, d) :: rest =>
    match UpdateScenario db t ⟨id, d, c, 0⟩ with
    | (db', Except.ok _) =>
      match storedTimes db' id, updateTrace id db' rest with
      | some p, some l => some (p :: l)
      | _, _ => none
    | (_, Except.error _) => none

/-! ## Association-list lemmas -/

theorem strLt_irrefl (l : List Char) : strLt l l = false := by
  induction l with
  | nil => rfl
  | cons c cs ih => simp [strLt, ih]

theorem alLookup_alPut_self {α : Type} (es : List (String × α)) (k : String) (v : α) :
    alLookup (alPut k v es) k = some v := by
  induction es with
  | nil => simp [alPut, alLookup]
  | cons hd tl ih =>
    obtain ⟨k', v'⟩ := hd
    by_cases hlt : strLt k.data k'.data = true
    · simp [alPut, hlt, alLookup]
    · by_cases heq : k = k'
      · subst heq
        simp [alPut, strLt_irrefl, alLookup]
      · simp [alPut, hlt, heq, alLookup, ih]

theorem alLookup_alPut_ne {α : Type} (es : List (String × α)) (k k' : String) (v : α)
    (h : k' ≠ k) : alLookup (alPut k v es) k' = alLookup es k' := by
  induction es with
  | nil => simp [alPut, alLookup, h]
  | cons hd tl ih =>
    obtain ⟨k₀, v₀⟩ := hd
    by_cases hlt : strLt k.data k₀.data = true
    · simp [alPut, hlt, alLookup, h]
    · by_cases heq : k = k₀
      · subst heq
        simp [alPut, hlt, alLookup, h]
      · by_cases h0 : k' = k₀
        · simp [alPut, hlt, heq, alLookup, h0]
        · simp [alPut, hlt, heq, alLookup, h0, ih]

theorem alLookup_alDelete_ne {α : Type} (es : List (String × α)) (k k' : String)
    (h : k' ≠ k) : alLookup (alDelete k es) k' = alLookup es k' := by
  induction es with
  | nil => simp [alDelete]
  | cons hd tl ih =>
    obtain ⟨k₀, v₀⟩ := hd
    by_cases heq : k = k₀
    · subst heq
      simp [alDelete, alLookup, h]
    · by_cases h0 : k' = k₀
      · simp [alDelete, heq, alLookup, h0]
      · simp [alDelete, heq, alLookup, h0, ih]

theorem alLookup_alDelete_self_of_nodup {α : Type} (es : List (String × α)) (k : String)
    (h : keysNodupB es = true) : alLookup (alDelete k es) k = none := by
  induction es with
  | nil => simp [alDelete, alLookup]
  | cons hd tl ih =>
    obtain ⟨k₀, v₀⟩ := hd
    simp only [keysNodupB, Bool.and_eq_true, Option.isNone_iff_eq_none] at h
    by_cases heq : k = k₀
    · subst heq
      simpa [alDelete] using h.1
    · simp [alDelete, heq, alLookup, ih h.2]

theorem mem_alPut {α : Type} {es : List (String × α)} {k : String} {v : α}
    {p : String × α} (h : p ∈ alPut k v es) : p = (k, v) ∨ p ∈ es := by
  induction es with
  | nil => simpa [alPut] using h
  | cons hd tl ih =>
    obtain ⟨k₀, v₀⟩ := hd
    by_cases hlt : strLt k.data k₀.data = true
    · rw [alPut, if_pos hlt, List.mem_cons] at h
      rcases h with h | h
      · exact Or.inl h
      · exact Or.inr h
    · by_cases heq : k = k₀
      · rw [alPut, if_neg hlt, if_pos heq, List.mem_cons] at h
        rcases h with h | h
        · exact Or.inl h
        · exact Or.inr (List.mem_cons_of_mem _ h)
      · rw [alPut, if_neg hlt, if_neg heq, List.mem_cons] at h
        rcases h with h | h
        · exact Or.inr (h ▸ List.mem_cons_self _ _)
        · rcases ih h with h' | h'
          · exact Or.inl h'
          · exact Or.inr (List.mem_cons_of_mem _ h')

theorem not_mem_keys_of_lookup_none {α : Type} {es : List (String × α)} {k : String}
    (h : alLookup es k = none) : k ∉ es.map Prod.fst := by
  induction es with
  | nil => simp
  | cons hd tl ih =>
    obtain ⟨k₀, v₀⟩ := hd
    by_cases heq : k = k₀
    · simp [alLookup, heq] at h
    · simp [alLookup, heq] at h
      simp [heq, ih h]

theorem mapfst_alPut_perm {α : Type} {es : List (String × α)} {k : String} {v : α}
    (h : k ∉ es.map Prod.fst) :
    List.Perm ((alPut k v es).map Prod.fst) (k :: es.map Prod.fst) := by
  induction es with
  | nil => simp [alPut]
  | cons hd tl ih =>
    obtain ⟨k₀, v₀⟩ := hd
    simp only [List.map_cons, List.mem_cons] at h
    push_neg at h
    by_cases hlt : strLt k.data k₀.data = true
    · simp [alPut, hlt]
    · by_cases heq : k = k₀
      · exact absurd heq h.1
      · simp only [alPut, if_neg hlt, if_neg heq, List.map_cons]
        exact (List.Perm.cons k₀ (ih h.2)).trans (List.Perm.swap k k₀ _)

/-! ## Timestamp codec round-trip -/

theorem charVal_digitChar (d : Nat) (h : d < 10) : (digitChar d).toNat - 48 = d := by
  interval_cases d <;> rfl

theorem foldl_natDigitsAux (fuel : Nat) :
    ∀ n a : Nat, n < fuel →
      ((natDigitsAux fuel n).map digitChar).foldl leafNatStep a =
        a * 10 ^ (natDigitsAux fuel n).length + n := by
  induction fuel with
  | zero => intro n a h; omega
  | succ fuel ih =>
    intro n a h
    by_cases h10 : n < 10
    · simp [natDigitsAux, h10, leafNatStep, charVal_digitChar n h10]
    · have hpos : 0 < n := by omega
      have hdiv : n / 10 < fuel := by
        have h1 : n / 10 < n := Nat.div_lt_self hpos (by omega)
        omega
      simp only [natDigitsAux, if_neg h10, List.map_append, List.foldl_append,
        List.length_append, List.map_cons, List.map_nil, List.foldl_cons,
        List.foldl_nil, List.length_cons, List.length_nil]
      rw [ih (n / 10) a hdiv]
      have hmod : (digitChar (n % 10)).toNat - 48 = n % 10 :=
        charVal_digitChar _ (Nat.mod_lt _ (by omega))
      simp only [leafNatStep, hmod]
      have hpow : a * 10 ^ ((natDigitsAux fuel (n / 10)).length + (0 + 1)) =
          a * 10 ^ (natDigitsAux fuel (n / 10)).length * 10 := by
        rw [pow_succ]
        ring
      rw [hpow]
      have hdm := Nat.div_add_mod n 10
      ring_nf
      omega

theorem leafNat_natLeaf (n : Nat) : leafNat (natLeaf n) = n := by
  have h := foldl_natDigitsAux (n + 1) n 0 (Nat.lt_succ_self n)
  simp only [leafNat, natLeaf] at *
  simpa using h

/-! ## Destructors for successful writes -/

theorem putLeaf_ok {bkt : Entries} {k v : String} {b : Entries}
    (h : putLeaf bkt k v = Except.ok b) :
    b = alPut k (Node.leaf v) bkt ∧ k ≠ "" := by
  unfold putLeaf at h
  split at h
  · exact absurd h (by simp)
  · rename_i hk
    split at h
    · exact absurd h (by simp)
    · exact ⟨(Except.ok.inj h).symm, hk⟩

theorem createBucket_ok {bkt : Entries} {name : String} {b : Entries}
    (h : createBucket bkt name = Except.ok b) :
    b = alPut name (Node.bucket []) bkt ∧ name ≠ "" ∧ alLookup bkt name = none := by
  unfold createBucket at h
  split at h
  · exact absurd h (by simp)
  · rename_i hk
    split at h
    · exact absurd h (by simp)
    · exact absurd h (by simp)
    · rename_i hnone
      exact ⟨(Except.ok.inj h).symm, hk, hnone⟩

theorem writeTimestamps_ok {bkt : Entries} {c u : Nat} {b : Entries}
    (h : WriteTimestamps bkt c u = Except.ok b) :
    b = alPut keyUpdatedAt (Node.leaf (natLeaf u))
          (alPut keyCreatedAt (Node.leaf (natLeaf c)) bkt) := by
  unfold WriteTimestamps at h
  split at h
  · exact absurd h (by simp)
  · rename_i b1 hput
    obtain ⟨hb1, -⟩ := putLeaf_ok hput
    obtain ⟨hb, -⟩ := putLeaf_ok h
    rw [hb, hb1]

theorem alLookup_stripBucket_ne (bkt : Entries) (name k : String) (h : k ≠ name) :
    alLookup (stripBucket bkt name) k = alLookup bkt k := by
  unfold stripBucket
  split
  · exact alLookup_alDelete_ne bkt name k h
  · rfl

theorem writeMapLoop_ok :
    ∀ (m : StrMap) (mb mbf : Entries) (m' : StrMap),
      writeMapLoop mb m = Except.ok (mbf, m') →
      m' = m.filter (fun p => p.2 != "") ∧
      ∀ p ∈ mbf, p ∈ mb ∨ ∃ k v, p = (k, Node.leaf v) ∧ v ≠ "" ∧ k ≠ "" := by
  intro m
  induction m with
  | nil =>
    intro mb mbf m' h
    simp only [writeMapLoop, Except.ok.injEq, Prod.mk.injEq] at h
    obtain ⟨h1, h2⟩ := h
    subst h1; subst h2
    exact ⟨rfl, fun p hp => Or.inl hp⟩
  | cons hd tl ih =>
    intro mb mbf m' h
    obtain ⟨k, v⟩ := hd
    by_cases hv : v = ""
    · rw [writeMapLoop, if_pos hv] at h
      obtain ⟨h1, h2⟩ := ih mb mbf m' h
      subst hv
      exact ⟨by simpa using h1, h2⟩
    · rw [writeMapLoop, if_neg hv] at h
      cases hput : putLeaf mb k v with
      | error e =>
        rw [hput] at h
        exact absurd h (by simp)
      | ok mb1 =>
        simp only [hput] at h
        cases hloop : writeMapLoop mb1 tl with
        | error e =>
          rw [hloop] at h
          exact absurd h (by simp)
        | ok pr =>
          obtain ⟨mbf0, m0⟩ := pr
          simp only [hloop, Except.ok.injEq, Prod.mk.injEq] at h
          obtain ⟨h1, h2⟩ := h
          subst h1
          obtain ⟨hfil, hmem⟩ := ih mb1 mbf0 m0 hloop
          obtain ⟨hmb1, hk⟩ := putLeaf_ok hput
          constructor
          · rw [← h2, hfil]
            simp [hv]
          · intro p hp
            rcases hmem p hp with hp' | hp'
            · rw [hmb1] at hp'
              rcases mem_alPut hp' with hp'' | hp''
              · exact Or.inr ⟨k, v, hp'', hv, hk⟩
              · exact Or.inl hp''
            · exact Or.inr hp'

theorem writeMap_ok {bkt : Entries} {name : String} {m : StrMap}
    {bkt' : Entries} {m' : StrMap}
    (h : writeMap bkt name m = Except.ok (bkt', m')) :
    (m = [] ∧ m' = m ∧ bkt' = stripBucket bkt name) ∨
    (m ≠ [] ∧ name ≠ "" ∧ ∃ mb, writeMapLoop [] m = Except.ok (mb, m') ∧
      bkt' = alPut name (Node.bucket mb) (stripBucket bkt name)) := by
  unfold writeMap at h
  by_cases hemp : m.isEmpty
  · rw [if_pos hemp] at h
    simp only [Except.ok.injEq, Prod.mk.injEq] at h
    exact Or.inl ⟨List.isEmpty_iff.mp hemp, h.2.symm, h.1.symm⟩
  · rw [if_neg hemp] at h
    cases hcr : createBucket (stripBucket bkt name) name with
    | error e =>
      simp only [hcr] at h
      exact absurd h (by simp)
    | ok b1 =>
      simp only [hcr] at h
      cases hloop : writeMapLoop [] m with
      | error e =>
        simp only [hloop] at h
        exact absurd h (by simp)
      | ok pr =>
        obtain ⟨mb, m0⟩ := pr
        simp only [hloop, Except.ok.injEq, Prod.mk.injEq] at h
        obtain ⟨-, hname, -⟩ := createBucket_ok hcr
        refine Or.inr ⟨fun hm => hemp (by simp [hm]), hname, mb, ?_, h.1.symm⟩
        rw [h.2]


theorem writeObjectsLoop_ok :
    ∀ (objs : ObjMap) (ob obf : Entries),
      writeObjectsLoop ob objs = Except.ok obf →
      List.Perm (obf.map Prod.fst) ((objs.map Prod.fst) ++ (ob.map Prod.fst)) ∧
      ∀ p ∈ obf, p ∈ ob ∨ ∃ name obj, p = (name, Node.bucket (objectEntries obj)) := by
  intro objs
  induction objs with
  | nil =>
    intro ob obf h
    simp only [writeObjectsLoop, Except.ok.injEq] at h
    rw [← h]
    exact ⟨by simp, fun p hp => Or.inl hp⟩
  | cons hd tl ih =>
    intro ob obf h
    obtain ⟨name, obj⟩ := hd
    rw [writeObjectsLoop] at h
    cases hcr : createBucket ob name with
    | error e =>
      simp only [hcr] at h
      exact absurd h (by simp)
    | ok b1 =>
      simp only [hcr] at h
      obtain ⟨-, -, hnone⟩ := createBucket_ok hcr
      obtain ⟨hperm, hmem⟩ := ih _ obf h
      constructor
      · have hkeys := @mapfst_alPut_perm Node ob name
          (Node.bucket (objectEntries obj)) (not_mem_keys_of_lookup_none hnone)
        have h1 : List.Perm (obf.map Prod.fst)
            ((tl.map Prod.fst) ++ (name :: ob.map Prod.fst)) :=
          hperm.trans (List.Perm.append_left _ hkeys)
        have h2 := h1.trans List.perm_middle
        simpa using h2
      · intro p hp
        rcases hmem p hp with hp' | hp'
        · rcases mem_alPut hp' with hp'' | hp''
          · exact Or.inr ⟨name, obj, hp''⟩
          · exact Or.inl hp''
        · exact Or.inr hp'

theorem writeObjects_ok {bkt : Entries} {objs : ObjMap} {bkt' : Entries}
    (h : writeObjects bkt objs = Except.ok bkt') :
    (objs = [] ∧ bkt' = stripBucket bkt keyObjects) ∨
    (objs ≠ [] ∧ ∃ ob, writeObjectsLoop [] objs = Except.ok ob ∧
      bkt' = alPut keyObjects (Node.bucket ob) (stripBucket bkt keyObjects)) := by
  unfold writeObjects at h
  by_cases hemp : objs.isEmpty
  · rw [if_pos hemp] at h
    simp only [Except.ok.injEq] at h
    exact Or.inl ⟨List.isEmpty_iff.mp hemp, h.symm⟩
  · rw [if_neg hemp] at h
    cases hcr : createBucket (stripBucket bkt keyObjects) keyObjects with
    | error e =>
      simp only [hcr] at h
      exact absurd h (by simp)
    | ok b1 =>
      simp only [hcr] at h
      cases hloop : writeObjectsLoop [] objs with
      | error e =>
        simp only [hloop] at h
        exact absurd h (by simp)
      | ok ob =>
        simp only [hloop, Except.ok.injEq] at h
        exact Or.inr ⟨fun hm => hemp (by simp [hm]), ob, rfl, h.symm⟩

theorem mem_alDelete {α : Type} {es : List (String × α)} {k : String}
    {p : String × α} (h : p ∈ alDelete k es) : p ∈ es := by
  induction es with
  | nil => simp [alDelete] at h
  | cons hd tl ih =>
    obtain ⟨k₀, v₀⟩ := hd
    by_cases heq : k = k₀
    · rw [alDelete, if_pos heq] at h
      exact List.mem_cons_of_mem _ h
    · rw [alDelete, if_neg heq, List.mem_cons] at h
      rcases h with h | h
      · exact h ▸ List.mem_cons_self _ _
      · exact List.mem_cons_of_mem _ (ih h)

theorem mem_stripBucket {bkt : Entries} {name : String} {p : String × Node}
    (h : p ∈ stripBucket bkt name) : p ∈ bkt := by
  unfold stripBucket at h
  split at h
  · exact mem_alDelete h
  · exact h

theorem buildDefinitionBucket_ok {sdef : ScenarioDefinition}
    {d : Entries} {sd : ScenarioDefinition}
    (h : buildDefinitionBucket sdef = Except.ok (d, sd)) :
    sd = ⟨sdef.objects, sdef.seed.filter (fun p => p.2 != ""),
          sdef.benchmark.filter (fun p => p.2 != "")⟩ ∧
    ∃ d1 d2 : Entries,
      writeObjects [] sdef.objects = Except.ok d1 ∧
      (∃ seed2, writeMap d1 keySeed sdef.seed = Except.ok (d2, seed2)) ∧
      (∃ bench2, writeMap d2 keyBenchmark sdef.benchmark = Except.ok (d, bench2)) := by
  unfold buildDefinitionBucket at h
  cases hobs : writeObjects [] sdef.objects with
  | error e =>
    simp only [hobs] at h
    exact absurd h (by simp)
  | ok d1 =>
    simp only [hobs] at h
    cases hseed : writeMap d1 keySeed sdef.seed with
    | error e =>
      simp only [hseed] at h
      exact absurd h (by simp)
    | ok pr =>
      obtain ⟨d2, seed2⟩ := pr
      simp only [hseed] at h
      cases hbench : writeMap d2 keyBenchmark sdef.benchmark with
      | error e =>
        simp only [hbench] at h
        exact absurd h (by simp)
      | ok pr2 =>
        obtain ⟨d3, bench2⟩ := pr2
        simp only [hbench, Except.ok.injEq, Prod.mk.injEq] at h
        obtain ⟨h1, h2⟩ := h
        subst h1
        have hs : seed2 = sdef.seed.filter (fun p => p.2 != "") := by
          rcases writeMap_ok hseed with ⟨hm, hm', -⟩ | ⟨-, -, mb, hl, -⟩
          · rw [hm', hm]
            rfl
          · exact (writeMapLoop_ok _ _ _ _ hl).1
        have hb : bench2 = sdef.benchmark.filter (fun p => p.2 != "") := by
          rcases writeMap_ok hbench with ⟨hm, hm', -⟩ | ⟨-, -, mb, hl, -⟩
          · rw [hm', hm]
            rfl
          · exact (writeMapLoop_ok _ _ _ _ hl).1
        refine ⟨?_, d1, d2, rfl, ⟨seed2, hseed⟩, ⟨bench2, hbench⟩⟩
        rw [← h2]
        simp [hs, hb]

theorem writeDefinition_ok {bkt : Entries} {sdef : ScenarioDefinition}
    {bkt2 : Entries} {sd : ScenarioDefinition}
    (h : writeDefinition bkt sdef = Except.ok (bkt2, sd)) :
    ∃ d, buildDefinitionBucket sdef = Except.ok (d, sd) ∧
      bkt2 = alPut keyDefinition (Node.bucket d) (stripBucket bkt keyDefinition) := by
  unfold writeDefinition at h
  cases hcr : createBucket (stripBucket bkt keyDefinition) keyDefinition with
  | error e =>
    simp only [hcr] at h
    exact absurd h (by simp)
  | ok b1 =>
    simp only [hcr] at h
    cases hb : buildDefinitionBucket sdef with
    | error e =>
      simp only [hb] at h
      exact absurd h (by simp)
    | ok pr =>
      obtain ⟨d, sd0⟩ := pr
      simp only [hb, Except.ok.injEq, Prod.mk.injEq] at h
      exact ⟨d, by rw [h.2], h.1.symm⟩

theorem writeScenario_ok {bkt : Entries} {s : Scenario} {b3 : Entries} {s' : Scenario}
    (h : writeScenario bkt s = Except.ok (b3, s')) :
    ∃ d, buildDefinitionBucket s.definition = Except.ok (d, s'.definition) ∧
      s' = { s with definition := s'.definition } ∧
      b3 = alPut keyID (Node.leaf s.id)
            (alPut keyDefinition (Node.bucket d)
              (stripBucket
                (alPut keyUpdatedAt (Node.leaf (natLeaf s.updatedAt))
                  (alPut keyCreatedAt (Node.leaf (natLeaf s.createdAt)) bkt))
                keyDefinition)) := by
  unfold writeScenario at h
  cases hts : WriteTimestamps bkt s.createdAt s.updatedAt with
  | error e =>
    simp only [hts] at h
    exact absurd h (by simp)
  | ok b1 =>
    simp only [hts] at h
    cases hwd : writeDefinition b1 s.definition with
    | error e =>
      simp only [hwd] at h
      exact absurd h (by simp)
    | ok pr =>
      obtain ⟨b2, sdef⟩ := pr
      simp only [hwd] at h
      cases hpl : putLeaf b2 keyID s.id with
      | error e =>
        simp only [hpl] at h
        exact absurd h (by simp)
      | ok bf =>
        simp only [hpl, Except.ok.injEq, Prod.mk.injEq] at h
        obtain ⟨h1, h2⟩ := h
        subst h2
        subst h1
        obtain ⟨d, hbuild, hb2⟩ := writeDefinition_ok hwd
        obtain ⟨hbf, -⟩ := putLeaf_ok hpl
        have hts' := writeTimestamps_ok hts
        refine ⟨d, hbuild, rfl, ?_⟩
        rw [hbf, hb2, hts']

theorem writeScenario_lookup {bkt : Entries} {s : Scenario} {b3 : Entries}
    {s' : Scenario} (h : writeScenario bkt s = Except.ok (b3, s')) :
    ∃ d, buildDefinitionBucket s.definition = Except.ok (d, s'.definition) ∧
      alLookup b3 keyID = some (Node.leaf s.id) ∧
      alLookup b3 keyDefinition = some (Node.bucket d) ∧
      alLookup b3 keyCreatedAt = some (Node.leaf (natLeaf s.createdAt)) ∧
      alLookup b3 keyUpdatedAt = some (Node.leaf (natLeaf s.updatedAt)) := by
  obtain ⟨d, hbuild, -, hb3⟩ := writeScenario_ok h
  subst hb3
  refine ⟨d, hbuild, ?_, ?_, ?_, ?_⟩
  · exact alLookup_alPut_self ..
  · rw [alLookup_alPut_ne _ keyID keyDefinition _ (by decide)]
    exact alLookup_alPut_self ..
  · rw [alLookup_alPut_ne _ keyID keyCreatedAt _ (by decide),
      alLookup_alPut_ne _ keyDefinition keyCreatedAt _ (by decide),
      alLookup_stripBucket_ne _ keyDefinition keyCreatedAt (by decide),
      alLookup_alPut_ne _ keyUpdatedAt keyCreatedAt _ (by decide)]
    exact alLookup_alPut_self ..
  · rw [alLookup_alPut_ne _ keyID keyUpdatedAt _ (by decide),
      alLookup_alPut_ne _ keyDefinition keyUpdatedAt _ (by decide),
      alLookup_stripBucket_ne _ keyDefinition keyUpdatedAt (by decide)]
    exact alLookup_alPut_self ..

theorem readScenario_writeScenario {bkt : Entries} {s : Scenario} {b3 : Entries}
    {s' : Scenario} (h : writeScenario bkt s = Except.ok (b3, s')) :
    ∃ d, buildDefinitionBucket s.definition = Except.ok (d, s'.definition) ∧
      (readScenario b3 (s.id)).definition = decodeDef d ∧
      (readScenario b3 (s.id)).createdAt = s.createdAt ∧
      (readScenario b3 (s.id)).updatedAt = s.updatedAt ∧
      ∀ id0 : String, (readScenario b3 id0).definition = decodeDef d ∧
        (readScenario b3 id0).createdAt = s.createdAt ∧
        (readScenario b3 id0).updatedAt = s.updatedAt := by
  obtain ⟨d, hbuild, hid, hdef, hc, hu⟩ := writeScenario_lookup h
  have hread : ∀ id0 : String, (readScenario b3 id0).definition = decodeDef d ∧
      (readScenario b3 id0).createdAt = s.createdAt ∧
      (readScenario b3 id0).updatedAt = s.updatedAt := by
    intro id0
    refine ⟨?_, ?_, ?_⟩
    · show readDefinition b3 = decodeDef d
      unfold readDefinition getBucket
      rw [hdef]
    · show (ReadTimestamps b3).1 = s.createdAt
      unfold ReadTimestamps leafText
      rw [hc]
      exact leafNat_natLeaf _
    · show (ReadTimestamps b3).2 = s.updatedAt
      unfold ReadTimestamps leafText
      rw [hu]
      exact leafNat_natLeaf _
  exact ⟨d, hbuild, (hread s.id).1, (hread s.id).2.1, (hread s.id).2.2, hread⟩

theorem createScenario_ok {db : Root} {now : Nat} {s : Scenario} {db' : Root}
    {r : Scenario} (h : CreateScenario db now s = (db', Except.ok r)) :
    alLookup (scenariosContents db) s.id = none ∧ s.id ≠ "" ∧
    ∃ cb, writeScenario [] { s with createdAt := now, updatedAt := now } = Except.ok (cb, r) ∧
      db' = alPut keyScenarios (alPut s.id (Node.bucket cb) (scenariosContents db)) db := by
  unfold CreateScenario runUpdate at h
  cases htx : createScenarioTx now s db with
  | error e =>
    simp only [htx] at h
    simp at h
  | ok pr =>
    obtain ⟨db2, r2⟩ := pr
    simp only [htx, Prod.mk.injEq, Except.ok.injEq] at h
    obtain ⟨hdb, hr⟩ := h
    unfold createScenarioTx at htx
    cases hcb : createBucket (scenariosContents db) s.id with
    | error e =>
      simp only [hcb] at htx
      cases e <;> simp at htx
    | ok b1 =>
      simp only [hcb] at htx
      obtain ⟨-, hid, hnone⟩ := createBucket_ok hcb
      cases hws : writeScenario [] { s with createdAt := now, updatedAt := now } with
      | error e =>
        simp only [hws] at htx
        simp at htx
      | ok pr2 =>
        obtain ⟨cb, s2⟩ := pr2
        simp only [hws, Except.ok.injEq, Prod.mk.injEq] at htx
        refine ⟨hnone, hid, cb, ?_, ?_⟩
        · rw [htx.2, hr]
        · rw [← hdb, ← htx.1]

theorem updateScenario_ok {db : Root} {now : Nat} {s : Scenario} {db' : Root}
    {r : Scenario} (h : UpdateScenario db now s = (db', Except.ok r)) :
    s.id ≠ "" ∧
    ∃ cb cb', getBucket (scenariosContents db) s.id = some cb ∧
      writeScenario cb { s with updatedAt := now } = Except.ok (cb', r) ∧
      db' = alPut keyScenarios (alPut s.id (Node.bucket cb') (scenariosContents db)) db := by
  unfold UpdateScenario at h
  by_cases hid : s.id = ""
  · rw [if_pos hid] at h
    simp at h
  · rw [if_neg hid] at h
    unfold runUpdate at h
    cases htx : updateScenarioTx now s db with
    | error e =>
      simp only [htx] at h
      simp at h
    | ok pr =>
      obtain ⟨db2, r2⟩ := pr
      simp only [htx, Prod.mk.injEq, Except.ok.injEq] at h
      obtain ⟨hdb, hr⟩ := h
      unfold updateScenarioTx at htx
      cases hcb : getBucket (scenariosContents db) s.id with
      | none =>
        simp only [hcb] at htx
        simp at htx
      | some cb =>
        simp only [hcb] at htx
        cases hws : writeScenario cb { s with updatedAt := now } with
        | error e =>
          simp only [hws] at htx
          simp at htx
        | ok pr2 =>
          obtain ⟨cb', s2⟩ := pr2
          simp only [hws, Except.ok.injEq, Prod.mk.injEq] at htx
          refine ⟨hid, cb, cb', rfl, ?_, ?_⟩
          · rw [hws, htx.2, hr]
          · rw [← hdb, ← htx.1]

theorem existsId_of_contents {db : Root} {id : String} {cb : Entries}
    (h : getBucket (scenariosContents db) id = some cb) : existsId db id = true := by
  unfold existsId getScenariosBucket
  unfold scenariosContents at h
  cases hl : alLookup db keyScenarios with
  | none =>
    rw [hl] at h
    simp [getBucket, alLookup] at h
  | some sb =>
    rw [hl] at h
    simp only [Option.getD_some] at h
    simp [h]

theorem mem_of_alLookup {α : Type} {es : List (String × α)} {k : String} {v : α}
    (h : alLookup es k = some v) : (k, v) ∈ es := by
  induction es with
  | nil => simp [alLookup] at h
  | cons hd tl ih =>
    obtain ⟨k₀, v₀⟩ := hd
    by_cases heq : k = k₀
    · rw [alLookup, if_pos heq] at h
      subst heq
      simp at h
      simp [h]
    · rw [alLookup, if_neg heq] at h
      exact List.mem_cons_of_mem _ (ih h)

theorem alLookup_of_getBucket {bkt : Entries} {name : String} {cb : Entries}
    (h : getBucket bkt name = some cb) : alLookup bkt name = some (Node.bucket cb) := by
  unfold getBucket at h
  cases hl : alLookup bkt name with
  | none =>
    rw [hl] at h
    simp at h
  | some n =>
    cases n with
    | leaf v =>
      rw [hl] at h
      simp at h
    | bucket es =>
      rw [hl] at h
      simp at h
      rw [h]

theorem filter_ne_empty {m : StrMap} {p : String × String}
    (h : p ∈ m.filter (fun q => q.2 != "")) : p.2 ≠ "" := by
  simp only [List.mem_filter, bne_iff_ne, ne_eq] at h
  exact h.2

theorem alLookup_writeMap_ne {bkt : Entries} {name : String} {m : StrMap}
    {bkt' : Entries} {m' : StrMap} (h : writeMap bkt name m = Except.ok (bkt', m'))
    (k : String) (hk : k ≠ name) : alLookup bkt' k = alLookup bkt k := by
  rcases writeMap_ok h with ⟨-, -, hb⟩ | ⟨-, -, mb, -, hb⟩
  · rw [hb]
    exact alLookup_stripBucket_ne bkt name k hk
  · rw [hb, alLookup_alPut_ne _ name k _ hk]
    exact alLookup_stripBucket_ne bkt name k hk

theorem readObjectsLoop_mapfst {ob : Entries}
    (h : ∀ p ∈ ob, ∃ es, p.2 = Node.bucket es) :
    (readObjectsLoop ob).map Prod.fst = ob.map Prod.fst := by
  induction ob with
  | nil => rfl
  | cons hd tl ih =>
    obtain ⟨name, n⟩ := hd
    cases n with
    | leaf v =>
      obtain ⟨es, hes⟩ := h _ (List.mem_cons_self _ _)
      simp at hes
    | bucket nb =>
      simp only [readObjectsLoop, List.map_cons]
      rw [ih (fun p hp => h p (List.mem_cons_of_mem _ hp))]

theorem decode_objects_perm {sdef : ScenarioDefinition} {d : Entries}
    {sd : ScenarioDefinition} (h : buildDefinitionBucket sdef = Except.ok (d, sd)) :
    List.Perm ((decodeDef d).objects.map Prod.fst) (sdef.objects.map Prod.fst) := by
  obtain ⟨-, d1, d2, hobs, ⟨seed2, hseed⟩, ⟨bench2, hbench⟩⟩ := buildDefinitionBucket_ok h
  have hpre : alLookup d keyObjects = alLookup d1 keyObjects := by
    rw [alLookup_writeMap_ne hbench keyObjects (by decide),
      alLookup_writeMap_ne hseed keyObjects (by decide)]
  rcases writeObjects_ok hobs with ⟨hm, hd1⟩ | ⟨hm, ob, hloop, hd1⟩
  · have hnone : alLookup d keyObjects = none := by
      rw [hpre, hd1]
      rfl
    unfold decodeDef readObjects getBucket
    simp only [hnone, hm]
    simp
  · have hob : alLookup d keyObjects = some (Node.bucket ob) := by
      rw [hpre, hd1]
      exact alLookup_alPut_self ..
    obtain ⟨hperm, hmem⟩ := writeObjectsLoop_ok sdef.objects [] ob hloop
    have hall : ∀ p ∈ ob, ∃ es, p.2 = Node.bucket es := by
      intro p hp
      rcases hmem p hp with hin | ⟨name, obj, hpe⟩
      · simp at hin
      · exact ⟨objectEntries obj, by rw [hpe]⟩
    unfold decodeDef readObjects getBucket
    simp only [hob]
    rw [readObjectsLoop_mapfst hall]
    simpa using hperm

theorem storedTimes_after_update {db : Root} {t : Nat} {s : Scenario} {db' : Root}
    {r : Scenario} (h : UpdateScenario db t s = (db', Except.ok r)) :
    storedTimes db' s.id = some (s.createdAt, t) := by
  obtain ⟨-, cb, cb', hcb, hws, hdb'⟩ := updateScenario_ok h
  obtain ⟨d, -, -, -, -, hall⟩ := readScenario_writeScenario hws
  have hget : GetScenario db' s.id = Except.ok (readScenario cb' s.id) := by
    rw [hdb']
    unfold GetScenario getScenariosBucket
    simp only [alLookup_alPut_self]
    unfold getBucket
    simp only [alLookup_alPut_self]
  unfold storedTimes
  rw [hget]
  have hc := (hall s.id).2.1
  have hu := (hall s.id).2.2
  simp only [hc, hu]

theorem listLoop_no_notFound : ∀ es : Entries, listLoop es ≠ Except.error Err.notFound := by
  intro es
  induction es with
  | nil => simp [listLoop]
  | cons hd tl ih =>
    obtain ⟨k, n⟩ := hd
    cases n with
    | leaf v => simp [listLoop]
    | bucket cb =>
      unfold listLoop
      cases hl : listLoop tl with
      | error e =>
        rw [hl] at ih
        simpa using ih
      | ok l => simp

theorem foldIdAux_const : ∀ (es : Entries) (a : String),
    (∀ v, (keyID, Node.leaf v) ∈ es → v = a) → foldIdAux es a = a := by
  intro es
  induction es with
  | nil => intro a h; rfl
  | cons hd tl ih =>
    intro a h
    obtain ⟨k, n⟩ := hd
    cases n with
    | leaf v =>
      unfold foldIdAux
      by_cases hk : k = keyID
      · subst hk
        have hv := h v (List.mem_cons_self _ _)
        rw [if_pos rfl, hv]
        exact ih a (fun w hw => h w (List.mem_cons_of_mem _ hw))
      · rw [if_neg hk]
        exact ih a (fun w hw => h w (List.mem_cons_of_mem _ hw))
    | bucket cb =>
      unfold foldIdAux
      exact ih a (fun w hw => h w (List.mem_cons_of_mem _ hw))

theorem writeScenario_nil_idLeaves {s : Scenario} {cb : Entries} {s' : Scenario}
    (h : writeScenario [] s = Except.ok (cb, s')) :
    ∀ w, (keyID, Node.leaf w) ∈ cb → w = s.id := by
  obtain ⟨d, -, -, hb⟩ := writeScenario_ok h
  subst hb
  intro w hw
  rcases mem_alPut hw with he | hw1
  · simp at he
    exact he
  · rcases mem_alPut hw1 with he | hw2
    · have h2 : keyID = keyDefinition := congrArg Prod.fst he
      exact absurd h2 (by decide)
    · have hw3 := mem_stripBucket hw2
      rcases mem_alPut hw3 with he | hw4
      · have h2 : keyID = keyUpdatedAt := congrArg Prod.fst he
        exact absurd h2 (by decide)
      · rcases mem_alPut hw4 with he | hw5
        · have h2 : keyID = keyCreatedAt := congrArg Prod.fst he
          exact absurd h2 (by decide)
        · simp at hw5

theorem listLoop_ids : ∀ es : Entries,
    (∀ p ∈ es, ∃ cb, p.2 = Node.bucket cb ∧ ∀ w, (keyID, Node.leaf w) ∈ cb → w = p.1) →
    ∃ l, listLoop es = Except.ok l ∧ l.map (fun r => r.id) = es.map Prod.fst := by
  intro es
  induction es with
  | nil =>
    intro h
    exact ⟨[], rfl, rfl⟩
  | cons hd tl ih =>
    intro h
    obtain ⟨k, n⟩ := hd
    obtain ⟨cb, hcb, hid⟩ := h _ (List.mem_cons_self _ _)
    simp only at hcb
    subst hcb
    obtain ⟨l, hl, hmap⟩ := ih (fun p hp => h p (List.mem_cons_of_mem _ hp))
    refine ⟨readScenario cb k :: l, ?_, ?_⟩
    · unfold listLoop
      simp only [hl]
    · simp only [List.map_cons, hmap]
      congr 1
      show foldIdAux cb k = k
      exact foldIdAux_const cb k (fun w hw => hid w hw)

/-! ## Claim theorems -/

/-- C2: for every operation (CreateScenario, UpdateScenario, DeleteScenario)
that returns an error, the persisted store state after the call is exactly
the state before the call: everything created or mutated inside the failed
transaction (for example the top-level scenarios bucket that UpdateScenario
creates before discovering the id-bucket is absent) is rolled back. -/
theorem c2_failed_write_rolls_back (db : Root) (now : Nat) (s : Scenario) (id : String) :
    (∀ e, (CreateScenario db now s).2 = Except.error e → (CreateScenario db now s).1 = db) ∧
    (∀ e, (UpdateScenario db now s).2 = Except.error e → (UpdateScenario db now s).1 = db) ∧
    (∀ e, (DeleteScenario db id).2 = Except.error e → (DeleteScenario db id).1 = db) := by
  refine ⟨?_, ?_, ?_⟩
  · intro e he
    unfold CreateScenario runUpdate at *
    cases htx : createScenarioTx now s db with
    | error e2 => simp [htx]
    | ok pr => simp [htx] at he
  · intro e he
    unfold UpdateScenario at *
    by_cases hid : s.id = ""
    · simp [hid]
    · simp only [if_neg hid] at *
      unfold runUpdate at *
      cases htx : updateScenarioTx now s db with
      | error e2 => simp [htx]
      | ok pr => simp [htx] at he
  · intro e he
    unfold DeleteScenario runUpdate at *
    cases htx : deleteScenarioTx id db with
    | error e2 => simp [htx]
    | ok pr => simp [htx] at he

/-- Witness for C2: concrete failing Create (empty id, rejected by the
engine), Update (empty id) and Delete (absent id) leave the empty store
unchanged. -/
theorem c2_witness :
    (CreateScenario [] 0 ⟨"", ⟨[], [], []⟩, 0, 0⟩).1 = [] ∧
    (UpdateScenario [] 0 ⟨"", ⟨[], [], []⟩, 0, 0⟩).1 = [] ∧
    (DeleteScenario [] "x").1 = [] := by
  refine ⟨?_, ?_, ?_⟩
  · exact (c2_failed_write_rolls_back [] 0 ⟨"", ⟨[], [], []⟩, 0, 0⟩ "x").1
      Err.bucketNameRequired rfl
  · exact (c2_failed_write_rolls_back [] 0 ⟨"", ⟨[], [], []⟩, 0, 0⟩ "x").2.1
      Err.invalidArgument rfl
  · exact (c2_failed_write_rolls_back [] 0 ⟨"", ⟨[], [], []⟩, 0, 0⟩ "x").2.2
      Err.notFound rfl

/-- C5: if a record with some id already exists (Get returns recA), then
CreateScenario with that id fails with AlreadyExists for every definition,
and a subsequent GetScenario still returns recA unchanged. -/
theorem c5_create_duplicate_already_exists (db : Root) (now : Nat) (id : String)
    (recA s : Scenario) (hid : id ≠ "") (hget : GetScenario db id = Except.ok recA)
    (hsid : s.id = id) :
    CreateScenario db now s = (db, Except.error Err.alreadyExists) ∧
    GetScenario (CreateScenario db now s).1 id = Except.ok recA := by
  unfold GetScenario at hget
  cases hl : getScenariosBucket db with
  | none =>
    simp only [hl] at hget
    simp at hget
  | some sb =>
    simp only [hl] at hget
    cases hcb : getBucket sb id with
    | none =>
      simp only [hcb] at hget
      simp at hget
    | some cb =>
      have hsc : scenariosContents db = sb := by
        unfold scenariosContents
        unfold getScenariosBucket at hl
        rw [hl]
        rfl
      have hcr : createBucket sb s.id = Except.error Err.bucketExists := by
        unfold createBucket
        rw [if_neg (by rw [hsid]; exact hid), hsid, alLookup_of_getBucket hcb]
      have hmain : CreateScenario db now s = (db, Except.error Err.alreadyExists) := by
        unfold CreateScenario runUpdate createScenarioTx
        simp only [hsc, hcr]
      refine ⟨hmain, ?_⟩
      rw [hmain]
      show GetScenario db id = Except.ok recA
      unfold GetScenario
      simp only [hl, hcb]
      simp only [hcb] at hget
      exact hget

/-- Witness for C5 at a concrete store holding "s1". -/
theorem c5_witness :
    CreateScenario (CreateScenario [] 4 ⟨"s1", ⟨[], [("q", "a")], []⟩, 0, 0⟩).1 9
        ⟨"s1", ⟨[], [], [("z", "w")]⟩, 0, 0⟩ =
      ((CreateScenario [] 4 ⟨"s1", ⟨[], [("q", "a")], []⟩, 0, 0⟩).1,
        Except.error Err.alreadyExists) ∧
    GetScenario
        (CreateScenario (CreateScenario [] 4 ⟨"s1", ⟨[], [("q", "a")], []⟩, 0, 0⟩).1 9
          ⟨"s1", ⟨[], [], [("z", "w")]⟩, 0, 0⟩).1 "s1" =
      Except.ok ⟨"s1", ⟨[], [("q", "a")], []⟩, 4, 4⟩ :=
  c5_create_duplicate_already_exists
    (CreateScenario [] 4 ⟨"s1", ⟨[], [("q", "a")], []⟩, 0, 0⟩).1 9 "s1"
    ⟨"s1", ⟨[], [("q", "a")], []⟩, 4, 4⟩ ⟨"s1", ⟨[], [], [("z", "w")]⟩, 0, 0⟩
    (by decide) rfl rfl

/-- C6: UpdateScenario fails with InvalidArgument on an empty id without
touching the store, fails with NotFound when no id-bucket exists for the
non-empty id, and succeeds only when the record exists, leaving it in the
exists state. -/
theorem c6_update_error_contract (db : Root) (now : Nat) (s : Scenario) :
    (s.id = "" → UpdateScenario db now s = (db, Except.error Err.invalidArgument)) ∧
    (s.id ≠ "" → existsId db s.id = false →
      UpdateScenario db now s = (db, Except.error Err.notFound)) ∧
    (∀ s', (UpdateScenario db now s).2 = Except.ok s' →
      existsId db s.id = true ∧ existsId (UpdateScenario db now s).1 s.id = true) := by
  refine ⟨?_, ?_, ?_⟩
  · intro hid
    unfold UpdateScenario
    rw [if_pos hid]
  · intro hid hex
    have hnone : getBucket (scenariosContents db) s.id = none := by
      unfold existsId at hex
      cases hl : getScenariosBucket db with
      | none =>
        unfold scenariosContents
        unfold getScenariosBucket at hl
        rw [hl]
        rfl
      | some sb =>
        simp only [hl] at hex
        have hsc : scenariosContents db = sb := by
          unfold scenariosContents
          unfold getScenariosBucket at hl
          rw [hl]
          rfl
        rw [hsc]
        cases hgb : getBucket sb s.id with
        | none => rfl
        | some cb =>
          rw [hgb] at hex
          simp at hex
    unfold UpdateScenario runUpdate updateScenarioTx
    rw [if_neg hid]
    simp only [hnone]
  · intro s' hok
    have hpair : UpdateScenario db now s = ((UpdateScenario db now s).1, Except.ok s') := by
      rw [← hok]
    obtain ⟨-, cb, cb', hcb, -, hdb'⟩ := updateScenario_ok hpair
    refine ⟨existsId_of_contents hcb, ?_⟩
    rw [hdb']
    simp [existsId, getScenariosBucket, getBucket, alLookup_alPut_self]

/-- Witness for C6: the three conjuncts at concrete inputs (empty id on the
empty store; "x" absent from the empty store; an update of an existing
record). -/
theorem c6_witness :
    UpdateScenario [] 0 ⟨"", ⟨[], [], []⟩, 0, 0⟩ = ([], Except.error Err.invalidArgument) ∧
    UpdateScenario [] 0 ⟨"x", ⟨[], [], []⟩, 0, 0⟩ = ([], Except.error Err.notFound) ∧
    (existsId (CreateScenario [] 1 ⟨"x", ⟨[], [], []⟩, 0, 0⟩).1 "x" = true ∧
      existsId (UpdateScenario (CreateScenario [] 1 ⟨"x", ⟨[], [], []⟩, 0, 0⟩).1 2
        ⟨"x", ⟨[], [], []⟩, 1, 0⟩).1 "x" = true) := by
  refine ⟨?_, ?_, ?_⟩
  · exact (c6_update_error_contract [] 0 ⟨"", ⟨[], [], []⟩, 0, 0⟩).1 rfl
  · exact (c6_update_error_contract [] 0 ⟨"x", ⟨[], [], []⟩, 0, 0⟩).2.1 (by decide) rfl
  · exact (c6_update_error_contract (CreateScenario [] 1 ⟨"x", ⟨[], [], []⟩, 0, 0⟩).1 2
      ⟨"x", ⟨[], [], []⟩, 1, 0⟩).2.2 ⟨"x", ⟨[], [], []⟩, 1, 2⟩ rfl

/-- C7: DeleteScenario on a nonexistent id (missing top-level bucket or
missing id-bucket, in a well-formed store) always fails with NotFound and
never succeeds silently; on an existing id it removes the id-bucket, after
which the id no longer exists and GetScenario fails NotFound. -/
theorem c7_delete_contract (db : Root) (id : String) :
    (existsId db id = false → scenariosWF db = true →
      DeleteScenario db id = (db, Except.error Err.notFound)) ∧
    (existsId db id = true → scenariosWF db = true →
      (DeleteScenario db id).2 = Except.ok () ∧
      existsId (DeleteScenario db id).1 id = false ∧
      GetScenario (DeleteScenario db id).1 id = Except.error Err.notFound) := by
  constructor
  · intro hex hwf
    cases hl : getScenariosBucket db with
    | none =>
      simp [DeleteScenario, runUpdate, deleteScenarioTx, hl]
    | some sb =>
      unfold existsId at hex
      simp only [hl] at hex
      unfold scenariosWF at hwf
      simp only [hl, Bool.and_eq_true, List.all_eq_true] at hwf
      have hdel : deleteBucket sb id = Except.error Err.bucketNotFound := by
        unfold deleteBucket
        cases hlk : alLookup sb id with
        | none => rfl
        | some n =>
          cases n with
          | leaf v =>
            have hmem := mem_of_alLookup hlk
            have hb := hwf.2 _ hmem
            simp at hb
          | bucket es =>
            unfold getBucket at hex
            rw [hlk] at hex
            simp at hex
      unfold DeleteScenario runUpdate deleteScenarioTx
      simp only [hl, hdel]
  · intro hex hwf
    cases hl : getScenariosBucket db with
    | none =>
      unfold existsId at hex
      simp only [hl] at hex
      simp at hex
    | some sb =>
      unfold existsId at hex
      simp only [hl] at hex
      cases hcb : getBucket sb id with
      | none =>
        rw [hcb] at hex
        simp at hex
      | some cb =>
        unfold scenariosWF at hwf
        simp only [hl, Bool.and_eq_true, List.all_eq_true] at hwf
        have hdel : deleteBucket sb id = Except.ok (alDelete id sb) := by
          unfold deleteBucket
          rw [alLookup_of_getBucket hcb]
        have hstate : DeleteScenario db id =
            (alPut keyScenarios (alDelete id sb) db, Except.ok ()) := by
          unfold DeleteScenario runUpdate deleteScenarioTx
          simp only [hl, hdel]
        have hnone := alLookup_alDelete_self_of_nodup sb id hwf.1
        rw [hstate]
        refine ⟨rfl, ?_, ?_⟩
        · simp [existsId, getScenariosBucket, getBucket, alLookup_alPut_self, hnone]
        · simp [GetScenario, getScenariosBucket, getBucket, alLookup_alPut_self, hnone]

/-- Witness for C7: delete of an absent id on the empty store, and delete of
an existing record. -/
theorem c7_witness :
    DeleteScenario [] "x" = ([], Except.error Err.notFound) ∧
    ((DeleteScenario (CreateScenario [] 1 ⟨"x", ⟨[], [("q", "a")], []⟩, 0, 0⟩).1 "x").2 =
        Except.ok () ∧
      existsId (DeleteScenario (CreateScenario [] 1 ⟨"x", ⟨[], [("q", "a")], []⟩, 0, 0⟩).1
        "x").1 "x" = false ∧
      GetScenario (DeleteScenario (CreateScenario [] 1 ⟨"x", ⟨[], [("q", "a")], []⟩, 0, 0⟩).1
        "x").1 "x" = Except.error Err.notFound) := by
  constructor
  · exact (c7_delete_contract [] "x").1 rfl rfl
  · exact (c7_delete_contract (CreateScenario [] 1 ⟨"x", ⟨[], [("q", "a")], []⟩, 0, 0⟩).1
      "x").2 rfl rfl

/-- C1 (code bug): Create then Get, at a definition whose object carries
non-empty Chunker and Layout, returns the object with those two fields
empty — `writeObjects` persists only the Type and Reference leaves and
`readObjects` decodes only those keys, so the claimed round-trip of all four
ObjectSpec scalar fields fails. -/
theorem c1_chunker_layout_dropped :
    GetScenario (CreateScenario [] 7
        ⟨"s", ⟨[("o", ⟨"t", "r", "c", "l"⟩)], [], []⟩, 0, 0⟩).1 "s" =
      Except.ok ⟨"s", ⟨[("o", ⟨"t", "r", "", ""⟩)], [], []⟩, 7, 7⟩ ∧
    (⟨"t", "r", "", ""⟩ : ObjectDefinition) ≠ ⟨"t", "r", "c", "l"⟩ :=
  ⟨rfl, by decide⟩

/-- C3: a successful UpdateScenario replaces the stored nested collections
wholesale — the definition GetScenario decodes afterwards is exactly the
round-trip of the newly written definition (no dependence on the prior
store), and its object key set is exactly the key set of the new write. -/
theorem c3_update_replaces_collections (db : Root) (now : Nat) (s : Scenario)
    (db' : Root) (s' : Scenario)
    (h : UpdateScenario db now s = (db', Except.ok s')) :
    ∃ r, GetScenario db' s.id = Except.ok r ∧
      defRoundTrip s.definition = some r.definition ∧
      List.Perm (r.definition.objects.map Prod.fst) (s.definition.objects.map Prod.fst) := by
  obtain ⟨-, cb, cb', hcb, hws, hdb'⟩ := updateScenario_ok h
  obtain ⟨d, hbuild, -, -, -, hall⟩ := readScenario_writeScenario hws
  have hbuild' : buildDefinitionBucket s.definition = Except.ok (d, s'.definition) := hbuild
  have hget : GetScenario db' s.id = Except.ok (readScenario cb' s.id) := by
    rw [hdb']
    unfold GetScenario getScenariosBucket
    simp only [alLookup_alPut_self]
    unfold getBucket
    simp only [alLookup_alPut_self]
  have hdefread : (readScenario cb' s.id).definition = decodeDef d := (hall s.id).1
  refine ⟨readScenario cb' s.id, hget, ?_, ?_⟩
  · unfold defRoundTrip
    rw [hbuild', hdefread]
  · rw [hdefread]
    exact decode_objects_perm hbuild'

/-- Witness for C3: Create "s2" with objects {a, b}, Update with objects
{a} — the decoded definition afterwards is the round-trip of the new write
and its object keys are exactly {a}. -/
theorem c3_witness :
    ∃ r, GetScenario (UpdateScenario (CreateScenario [] 1
        ⟨"s2", ⟨[("a", ⟨"x", "y", "", ""⟩), ("b", ⟨"z", "w", "", ""⟩)], [], []⟩,
          0, 0⟩).1 2
        ⟨"s2", ⟨[("a", ⟨"x", "y", "", ""⟩)], [], []⟩, 0, 0⟩).1 "s2" =
        Except.ok r ∧
      defRoundTrip (⟨[("a", ⟨"x", "y", "", ""⟩)], [], []⟩ : ScenarioDefinition) =
        some r.definition ∧
      List.Perm (r.definition.objects.map Prod.fst)
        ((⟨[("a", ⟨"x", "y", "", ""⟩)], [], []⟩ : ScenarioDefinition).objects.map Prod.fst) :=
  c3_update_replaces_collections
    (CreateScenario [] 1
      ⟨"s2", ⟨[("a", ⟨"x", "y", "", ""⟩), ("b", ⟨"z", "w", "", ""⟩)], [], []⟩, 0, 0⟩).1
    2 ⟨"s2", ⟨[("a", ⟨"x", "y", "", ""⟩)], [], []⟩, 0, 0⟩ _
    ⟨"s2", ⟨[("a", ⟨"x", "y", "", ""⟩)], [], []⟩, 0, 2⟩ rfl

/-- C4 counterexample: the stored CreatedAt after an update is NOT the value
set at creation regardless of the caller's record — a successful update with
CreatedAt 99 in the record overwrites the stored creation instant 5 with
99. -/
theorem c4_counterexample_createdat_clobbered :
    storedTimes (CreateScenario [] 5 ⟨"s1", ⟨[], [], []⟩, 0, 0⟩).1 "s1" = some (5, 5) ∧
    (UpdateScenario (CreateScenario [] 5 ⟨"s1", ⟨[], [], []⟩, 0, 0⟩).1 9
        ⟨"s1", ⟨[], [], []⟩, 99, 0⟩).2 =
      Except.ok ⟨"s1", ⟨[], [], []⟩, 99, 9⟩ ∧
    storedTimes (UpdateScenario (CreateScenario [] 5 ⟨"s1", ⟨[], [], []⟩, 0, 0⟩).1 9
        ⟨"s1", ⟨[], [], []⟩, 99, 0⟩).1 "s1" = some (99, 9) ∧
    (99 : Nat) ≠ 5 :=
  ⟨rfl, rfl, rfl, by decide⟩

/-- C4 (amended): across any sequence of successful updates of one record,
the stored pair after each update is exactly (the CreatedAt the caller
passed in that update's record, that update's clock instant); hence the
stored UpdatedAt is non-decreasing whenever the clock readings are, and the
stored CreatedAt equals the creation value only when the caller passes that
value, not regardless of it. -/
theorem c4_amended_timestamps (id : String) (us : List (Nat × Nat × ScenarioDefinition))
    (db : Root) (trace : List (Nat × Nat)) (h : updateTrace id db us = some trace) :
    trace = us.map (fun x => (x.2.1, x.1)) ∧
    (List.Chain' (fun a b => a ≤ b) (us.map (fun x => x.1)) →
      List.Chain' (fun a b => a ≤ b) (trace.map (fun p => p.2))) := by
  have main : ∀ (us : List (Nat × Nat × ScenarioDefinition)) (db : Root)
      (trace : List (Nat × Nat)), updateTrace id db us = some trace →
      trace = us.map (fun x => (x.2.1, x.1)) := by
    intro us
    induction us with
    | nil =>
      intro db trace h
      simp only [updateTrace, Option.some.injEq] at h
      subst h
      rfl
    | cons hd tl ih =>
      intro db trace h
      obtain ⟨t, c, d⟩ := hd
      unfold updateTrace at h
      cases hu : UpdateScenario db t ⟨id, d, c, 0⟩ with
      | mk db' r =>
        cases r with
        | error e =>
          simp only [hu] at h
          simp at h
        | ok s' =>
          simp only [hu] at h
          have hst : storedTimes db' id = some (c, t) := storedTimes_after_update hu
          simp only [hst] at h
          cases htr : updateTrace id db' tl with
          | none =>
            simp only [htr] at h
            simp at h
          | some l =>
            simp only [htr, Option.some.injEq] at h
            rw [← h, ih db' l htr]
            rfl
  refine ⟨main us db trace h, ?_⟩
  intro hch
  rw [main us db trace h, List.map_map]
  simpa [Function.comp] using hch

/-- Witness for C4 (amended) at a concrete two-update sequence: the trace of
stored pairs is exactly the caller-passed CreatedAt values paired with the
update instants. -/
theorem c4_witness :
    updateTrace "s1" (CreateScenario [] 5 ⟨"s1", ⟨[], [], []⟩, 0, 0⟩).1
        [(9, 5, ⟨[], [], []⟩), (11, 99, ⟨[], [], []⟩)] =
      some [(5, 9), (99, 11)] ∧
    ([(5, 9), (99, 11)] : List (Nat × Nat)) =
      ([(9, 5, (⟨[], [], []⟩ : ScenarioDefinition)), (11, 99, ⟨[], [], []⟩)]).map
        (fun x => (x.2.1, x.1)) :=
  ⟨rfl,
    (c4_amended_timestamps "s1" [(9, 5, ⟨[], [], []⟩), (11, 99, ⟨[], [], []⟩)]
      (CreateScenario [] 5 ⟨"s1", ⟨[], [], []⟩, 0, 0⟩).1 [(5, 9), (99, 11)] rfl).1⟩

/-- C8: ListScenarios never fails with NotFound; it returns the empty
collection when the top-level bucket is absent or empty; and after creating
records with three ids starting from a store without the namespace, it
returns records for exactly those ids (order unspecified) and no others. -/
theorem c8_list_contract :
    (∀ db : Root, ListScenarios db ≠ Except.error Err.notFound) ∧
    (∀ db : Root, getScenariosBucket db = none → ListScenarios db = Except.ok []) ∧
    (∀ db : Root, getScenariosBucket db = some [] → ListScenarios db = Except.ok []) ∧
    (∀ (db0 db1 db2 db3 : Root) (n1 n2 n3 : Nat) (s1 s2 s3 r1 r2 r3 : Scenario),
      getScenariosBucket db0 = none →
      CreateScenario db0 n1 s1 = (db1, Except.ok r1) →
      CreateScenario db1 n2 s2 = (db2, Except.ok r2) →
      CreateScenario db2 n3 s3 = (db3, Except.ok r3) →
      ∃ l, ListScenarios db3 = Except.ok l ∧
        List.Perm (l.map (fun r => r.id)) [s1.id, s2.id, s3.id]) := by
  refine ⟨?_, ?_, ?_, ?_⟩
  · intro db
    unfold ListScenarios
    cases hl : getScenariosBucket db with
    | none => simp
    | some sb => exact listLoop_no_notFound sb
  · intro db h
    unfold ListScenarios
    simp only [h]
  · intro db h
    unfold ListScenarios
    simp only [h]
    rfl
  · intro db0 db1 db2 db3 n1 n2 n3 s1 s2 s3 r1 r2 r3 h0 h1 h2 h3
    obtain ⟨hn1, -, cb1, hws1, hdb1⟩ := createScenario_ok h1
    obtain ⟨hn2, -, cb2, hws2, hdb2⟩ := createScenario_ok h2
    obtain ⟨hn3, -, cb3, hws3, hdb3⟩ := createScenario_ok h3
    have hs0 : scenariosContents db0 = [] := by
      unfold scenariosContents
      unfold getScenariosBucket at h0
      rw [h0]
      rfl
    have hs1 : scenariosContents db1 = alPut s1.id (Node.bucket cb1) [] := by
      rw [hdb1, hs0]
      unfold scenariosContents
      rw [alLookup_alPut_self]
      rfl
    have hs2 : scenariosContents db2 =
        alPut s2.id (Node.bucket cb2) (alPut s1.id (Node.bucket cb1) []) := by
      rw [hdb2, hs1]
      unfold scenariosContents
      rw [alLookup_alPut_self]
      rfl
    have hl3 : getScenariosBucket db3 =
        some (alPut s3.id (Node.bucket cb3)
          (alPut s2.id (Node.bucket cb2) (alPut s1.id (Node.bucket cb1) []))) := by
      rw [hdb3]
      unfold getScenariosBucket
      rw [alLookup_alPut_self, hs2]
    have hent : ∀ p ∈ alPut s3.id (Node.bucket cb3)
        (alPut s2.id (Node.bucket cb2) (alPut s1.id (Node.bucket cb1) [])),
        ∃ cb, p.2 = Node.bucket cb ∧ ∀ w, (keyID, Node.leaf w) ∈ cb → w = p.1 := by
      intro p hp
      rcases mem_alPut hp with he | hp1
      · subst he
        refine ⟨cb3, rfl, fun w hw => ?_⟩
        exact writeScenario_nil_idLeaves hws3 w hw
      · rcases mem_alPut hp1 with he | hp2
        · subst he
          refine ⟨cb2, rfl, fun w hw => ?_⟩
          exact writeScenario_nil_idLeaves hws2 w hw
        · rcases mem_alPut hp2 with he | hp3
          · subst he
            refine ⟨cb1, rfl, fun w hw => ?_⟩
            exact writeScenario_nil_idLeaves hws1 w hw
          · simp at hp3
    obtain ⟨l, hll, hmap⟩ := listLoop_ids _ hent
    refine ⟨l, ?_, ?_⟩
    · unfold ListScenarios
      simp only [hl3]
      exact hll
    · rw [hmap]
      have hn2' : s2.id ∉ (alPut s1.id (Node.bucket cb1) ([] : Entries)).map Prod.fst := by
        rw [← hs1]
        exact not_mem_keys_of_lookup_none hn2
      have hn3' : s3.id ∉ (alPut s2.id (Node.bucket cb2)
          (alPut s1.id (Node.bucket cb1) ([] : Entries))).map Prod.fst := by
        rw [← hs2]
        exact not_mem_keys_of_lookup_none hn3
      have p3 := @mapfst_alPut_perm Node _ _ (Node.bucket cb3) hn3'
      have p2 := @mapfst_alPut_perm Node _ _ (Node.bucket cb2) hn2'
      have hstep : List.Perm ((alPut s3.id (Node.bucket cb3) (alPut s2.id (Node.bucket cb2)
          (alPut s1.id (Node.bucket cb1) []))).map Prod.fst) [s3.id, s2.id, s1.id] := by
        refine p3.trans (List.Perm.cons _ ?_)
        have k1 : (alPut s1.id (Node.bucket cb1) ([] : Entries)).map Prod.fst = [s1.id] := rfl
        rw [k1] at p2
        exact p2
      refine hstep.trans ?_
      have hrev : ([s1.id, s2.id, s3.id] : List String).reverse = [s3.id, s2.id, s1.id] := rfl
      rw [← hrev]
      exact List.reverse_perm _

/-- Witness for C8 at a concrete sequence of three creates from the empty
store. -/
theorem c8_witness :
    ∃ l, ListScenarios (CreateScenario (CreateScenario (CreateScenario [] 1
          ⟨"x", ⟨[], [], []⟩, 0, 0⟩).1 2 ⟨"y", ⟨[], [], []⟩, 0, 0⟩).1 3
          ⟨"z", ⟨[], [], []⟩, 0, 0⟩).1 = Except.ok l ∧
      List.Perm (l.map (fun r => r.id)) ["x", "y", "z"] :=
  c8_list_contract.2.2.2 [] _ _ _ 1 2 3
    ⟨"x", ⟨[], [], []⟩, 0, 0⟩ ⟨"y", ⟨[], [], []⟩, 0, 0⟩ ⟨"z", ⟨[], [], []⟩, 0, 0⟩
    ⟨"x", ⟨[], [], []⟩, 1, 1⟩ ⟨"y", ⟨[], [], []⟩, 2, 2⟩ ⟨"z", ⟨[], [], []⟩, 3, 3⟩
    rfl rfl rfl rfl

/-- C9 counterexample: a Seed map whose only entry is empty-string-valued
does NOT leave no sub-bucket behind — the successful Create persists an
empty `seed` sub-bucket (the emptiness check runs before the pruning). -/
theorem c9_counterexample_empty_valued_map_leaves_bucket :
    (CreateScenario [] 0 ⟨"s", ⟨[], [("a", "")], []⟩, 0, 0⟩).2 =
      Except.ok ⟨"s", ⟨[], [], []⟩, 0, 0⟩ ∧
    ((getScenariosBucket (CreateScenario [] 0 ⟨"s", ⟨[], [("a", "")], []⟩, 0, 0⟩).1).bind
      (fun sb => (getBucket sb "s").bind
        (fun cb => (getBucket cb keyDefinition).bind
          (fun dk => getBucket dk keySeed)))) = some [] :=
  ⟨rfl, rfl⟩

/-- C9 (amended): on every successful `writeMap`, an existing sub-bucket for
the field is deleted in full and the field's sub-bucket afterwards is rebuilt
from the new map alone — absent when the map is empty, present (possibly with
no leaves) when the map has any entry, including only empty-valued ones — and
no leaf inside it ever holds an empty key or an empty value. -/
theorem c9_amended_writemap (bkt : Entries) (name : String) (m : StrMap)
    (bkt' : Entries) (m' : StrMap) (hnd : keysNodupB bkt = true)
    (h : writeMap bkt name m = Except.ok (bkt', m')) :
    (m = [] → getBucket bkt' name = none) ∧
    (m ≠ [] → ∃ sub, getBucket bkt' name = some sub ∧
      (∃ mres, writeMapLoop [] m = Except.ok (sub, mres)) ∧
      ∀ p ∈ sub, p.1 ≠ "" ∧ ∃ v, p.2 = Node.leaf v ∧ v ≠ "") := by
  rcases writeMap_ok h with ⟨hm, hm', hb⟩ | ⟨hm, hname, mb, hloop, hb⟩
  · constructor
    · intro h0
      rw [hb]
      unfold stripBucket
      by_cases hs : (getBucket bkt name).isSome
      · rw [if_pos hs]
        unfold getBucket
        rw [alLookup_alDelete_self_of_nodup bkt name hnd]
      · rw [if_neg hs]
        cases hgb : getBucket bkt name with
        | none => rfl
        | some sub =>
          rw [hgb] at hs
          simp at hs
    · intro hne
      exact absurd hm hne
  · constructor
    · intro h0
      exact absurd h0 hm
    · intro h0
      refine ⟨mb, ?_, ⟨m', hloop⟩, ?_⟩
      · rw [hb]
        unfold getBucket
        rw [alLookup_alPut_self]
      · intro p hp
        rcases (writeMapLoop_ok m [] mb m' hloop).2 p hp with hin | ⟨k, v, hpe, hv, hk⟩
        · simp at hin
        · subst hpe
          exact ⟨hk, v, rfl, hv⟩

/-- Witness for C9 (amended): a concrete write over a bucket with stale
contents and a map with one kept and one pruned entry. -/
theorem c9_witness :
    ∃ sub, getBucket (alPut "seed" (Node.bucket [("a", Node.leaf "1")]) []) "seed" =
        some sub ∧
      (∃ mres, writeMapLoop [] [("a", "1"), ("b", "")] = Except.ok (sub, mres)) ∧
      ∀ p ∈ sub, p.1 ≠ "" ∧ ∃ v, p.2 = Node.leaf v ∧ v ≠ "" :=
  (c9_amended_writemap [("seed", Node.bucket [("old", Node.leaf "x")])] "seed"
    [("a", "1"), ("b", "")] (alPut "seed" (Node.bucket [("a", Node.leaf "1")]) [])
    [("a", "1")] rfl rfl).2 (by decide)

/-- C10: the Scenario value returned by a successful CreateScenario or
UpdateScenario carries the pruned Seed and Benchmark maps — exactly the
caller's maps with every empty-string-valued entry deleted, so no
empty-valued entry is observable in the returned record. -/
theorem c10_returned_maps_pruned (db : Root) (now : Nat) (s : Scenario) :
    (∀ db' s', CreateScenario db now s = (db', Except.ok s') →
      s'.definition.seed = s.definition.seed.filter (fun p => p.2 != "") ∧
      s'.definition.benchmark = s.definition.benchmark.filter (fun p => p.2 != "") ∧
      (∀ p ∈ s'.definition.seed, p.2 ≠ "") ∧
      (∀ p ∈ s'.definition.benchmark, p.2 ≠ "")) ∧
    (∀ db' s', UpdateScenario db now s = (db', Except.ok s') →
      s'.definition.seed = s.definition.seed.filter (fun p => p.2 != "") ∧
      s'.definition.benchmark = s.definition.benchmark.filter (fun p => p.2 != "") ∧
      (∀ p ∈ s'.definition.seed, p.2 ≠ "") ∧
      (∀ p ∈ s'.definition.benchmark, p.2 ≠ "")) := by
  constructor
  · intro db' s' h
    obtain ⟨-, -, cb, hws, -⟩ := createScenario_ok h
    obtain ⟨d, hbuild, -, -⟩ := writeScenario_ok hws
    obtain ⟨hdef, -⟩ := buildDefinitionBucket_ok hbuild
    have h1 : s'.definition.seed = s.definition.seed.filter (fun p => p.2 != "") := by
      rw [hdef]
    have h2 : s'.definition.benchmark = s.definition.benchmark.filter (fun p => p.2 != "") := by
      rw [hdef]
    refine ⟨h1, h2, ?_, ?_⟩
    · rw [h1]
      intro p hp
      exact filter_ne_empty hp
    · rw [h2]
      intro p hp
      exact filter_ne_empty hp
  · intro db' s' h
    obtain ⟨-, cb, cb', hcb, hws, -⟩ := updateScenario_ok h
    obtain ⟨d, hbuild, -, -⟩ := writeScenario_ok hws
    obtain ⟨hdef, -⟩ := buildDefinitionBucket_ok hbuild
    have h1 : s'.definition.seed = s.definition.seed.filter (fun p => p.2 != "") := by
      rw [hdef]
    have h2 : s'.definition.benchmark = s.definition.benchmark.filter (fun p => p.2 != "") := by
      rw [hdef]
    refine ⟨h1, h2, ?_, ?_⟩
    · rw [h1]
      intro p hp
      exact filter_ne_empty hp
    · rw [h2]
      intro p hp
      exact filter_ne_empty hp

/-- Witness for C10 at a concrete Create whose Seed and Benchmark carry
empty-valued entries. -/
theorem c10_witness :
    (⟨"s", ⟨[], [("b", "v")], []⟩, 3, 3⟩ : Scenario).definition.seed =
        ([("a", ""), ("b", "v")] : StrMap).filter (fun p => p.2 != "") ∧
    (⟨"s", ⟨[], [("b", "v")], []⟩, 3, 3⟩ : Scenario).definition.benchmark =
        ([("c", "")] : StrMap).filter (fun p => p.2 != "") :=
  have h := (c10_returned_maps_pruned [] 3
      ⟨"s", ⟨[], [("a", ""), ("b", "v")], [("c", "")]⟩, 0, 0⟩).1
    (CreateScenario [] 3 ⟨"s", ⟨[], [("a", ""), ("b", "v")], [("c", "")]⟩, 0, 0⟩).1
    ⟨"s", ⟨[], [("b", "v")], []⟩, 3, 3⟩ rfl
  ⟨h.1, h.2.1⟩

end P2plab
